import Mathlib

/-!
Verification of the `mrpy` analytic-likelihood engine
(`mrpy/analytic_model.py`, class `IdealAnalytic`) against its
natural-language specification.

The Python source is shallowly embedded over `ℚ`.  All external numeric
primitives (gamma, incomplete gamma, polygamma, the arbitrary-precision
generalized hypergeometric evaluator, numpy's `log`, `exp`, `sqrt` and
real powers, and the black-box density shape `mrp_shape` /
`ln_mrp_shape` and the superclass `_meijerg`) are fields of an `Ext`
structure, since the specification treats them as black-box building
blocks supplied by external collaborators.  `np.linalg.inv` is modelled
by the exact adjugate-over-determinant inverse `inv3`.

The superclass `MRP_PO_Likelihood` (module `likelihoods`) and the
`core` module are part of this repository but are not among the given
source files; the quantities they provide are modelled from the spec
and are marked `Modelled from the spec:` in their doc comments.

Quantities whose Python names begin with an underscore keep that
underscore here (`_t`, `_u`, `_F`, ...).
-/

namespace Mrpy

/-- Runtime faults of the Python evaluation that the embedding tracks:
`valueError` (e.g. tuple-unpacking arity mismatch, or a missing required
keyword argument, both raised as `ValueError`), `zeroDivisionError`
(scalar float division by zero), `typeError` (iterating or evaluating a
non-iterable where an iterable is required), `shapeError` (numpy
broadcast failure of incompatible 1-D lengths), and `indexError`
(indexing an empty sequence). -/
inductive Err where
  | valueError
  | zeroDivisionError
  | typeError
  | shapeError
  | indexError
deriving DecidableEq, Repr

/-- The three free parameters of the distribution, in the fixed order
used by the engine: `h` = log-scale, `a` = slope, `b` = cutoff-shape. -/
inductive Param where
  | h
  | a
  | b
deriving DecidableEq, Repr

/-- Python's `x or d` defaulting idiom applied to an optional float
argument: `None` is falsy, and a float is falsy exactly when it equals
`0`; in both cases the default is taken, otherwise the value itself. -/
def pyOr (x : Option ℚ) (d : ℚ) : ℚ :=
  match x with
  | none => d
  | some t => if t = 0 then d else t

/-- Arguments of `IdealAnalytic.__init__`: `lnA`, `V`, `logHsd`,
`alphad`, `betad` are the explicit (optional) parameters; `log_mmin`
models whether the `"log_mmin"` key is present in `**kwargs`; `logHs`,
`alpha`, `beta`, `scale` are forwarded to the superclass. -/
structure Args where
  lnA : ℚ := -44
  V : ℚ := 200 ^ 3
  logHsd : Option ℚ := none
  alphad : Option ℚ := none
  betad : Option ℚ := none
  log_mmin : Option ℚ := none
  logHs : ℚ
  alpha : ℚ
  beta : ℚ
  scale : ℚ := 0

/-- The state of a constructed `IdealAnalytic` instance: the model
parameters (held read-only by the superclass), the volume and
normalisation, the truncation mass, and the data parameters together
with the stored shifted data slope `_alphad_s = alphad + scale`. -/
structure Ctx where
  lnA : ℚ
  V : ℚ
  logHs : ℚ
  alpha : ℚ
  beta : ℚ
  scale : ℚ
  log_mmin : ℚ
  logHsd : ℚ
  alphad : ℚ
  betad : ℚ
  alphad_s : ℚ
deriving DecidableEq, Repr

/-- `IdealAnalytic.__init__`: raises `ValueError` when `"log_mmin"` is
not among the keyword arguments; otherwise pops it, forwards the model
parameters to the superclass, stores `V` and `lnA`, and sets the data
parameters by the truthiness-defaulting `logHsd or self.logHs` (and
likewise for `alphad`, `betad`), finally caching
`_alphad_s = alphad + scale`. -/
def init (ar : Args) : Except Err Ctx :=
  match ar.log_mmin with
  | none => .error .valueError
  | some lm =>
    let alphad := pyOr ar.alphad ar.alpha
    .ok { lnA := ar.lnA, V := ar.V, logHs := ar.logHs, alpha := ar.alpha
          beta := ar.beta, scale := ar.scale, log_mmin := lm
          logHsd := pyOr ar.logHsd ar.logHs
          alphad := alphad
          betad := pyOr ar.betad ar.beta
          alphad_s := alphad + ar.scale }

/-- `IdealAnalytic._zd` with Python scalar-float semantics: the
combined shape exponent `(self._alphad_s + 1) / self.betad`, which
raises `ZeroDivisionError` when the data cutoff-shape is zero instead
of producing a value. -/
def _zdChecked (c : Ctx) : Except Err ℚ :=
  if c.betad = 0 then .error .zeroDivisionError
  else .ok ((c.alphad_s + 1) / c.betad)

/-- The external numeric primitives the engine delegates to, treated as
black boxes per the spec: `gamma`, regularized lower incomplete
`gammainc`, `polygamma`, the arbitrary-precision generalized
hypergeometric evaluator `hyper`, numpy's `log`, `exp`, `sqrt` and the
general power `rpow b x = b ** x`, the density-shape provider
`mrp_shape` / `ln_mrp_shape` (mass, log-scale, shifted slope,
cutoff-shape), and the superclass Meijer-G evaluator `meijerg`. -/
structure Ext where
  gamma : ℚ → ℚ
  gammainc : ℚ → ℚ → ℚ
  polygamma : ℕ → ℚ → ℚ
  hyper : List ℚ → List ℚ → ℚ → ℚ
  log : ℚ → ℚ
  exp : ℚ → ℚ
  sqrt : ℚ → ℚ
  rpow : ℚ → ℚ → ℚ
  mrp_shape : ℚ → ℚ → ℚ → ℚ → ℚ
  ln_mrp_shape : ℚ → ℚ → ℚ → ℚ → ℚ
  meijerg : List (List ℚ) → List (List ℚ) → ℚ → ℚ

/-- Modelled from the spec: the superclass `MRP_PO_Likelihood` (module
`likelihoods`, not among the given sources) implements the closed-form
second partial derivatives of the log density `ln g` and of the log
normalization `ln q` with respect to the model parameters; only the
canonical ordering (`h` before `a` before `b`) is implemented, one
attribute per unordered pair. These opaque per-instance values are the
inputs `_F_x_y` looks up by name. -/
structure Super where
  lng_h_h : ℚ
  lng_h_a : ℚ
  lng_h_b : ℚ
  lng_a_a : ℚ
  lng_a_b : ℚ
  lng_b_b : ℚ
  lnq_h_h : ℚ
  lnq_h_a : ℚ
  lnq_h_b : ℚ
  lnq_a_a : ℚ
  lnq_a_b : ℚ
  lnq_b_b : ℚ

/-- Attribute lookup `getattr(self, "_lng_%s_%s" % (x, y))`: defined
only for the canonical orderings (`AttributeError`, i.e. `none`,
otherwise). -/
def Super.lng2 (s : Super) : Param → Param → Option ℚ
  | .h, .h => some s.lng_h_h
  | .h, .a => some s.lng_h_a
  | .h, .b => some s.lng_h_b
  | .a, .a => some s.lng_a_a
  | .a, .b => some s.lng_a_b
  | .b, .b => some s.lng_b_b
  | _, _ => none

/-- Attribute lookup `getattr(self, "_lnq_%s_%s" % (x, y))`: canonical
orderings only. -/
def Super.lnq2 (s : Super) : Param → Param → Option ℚ
  | .h, .h => some s.lnq_h_h
  | .h, .a => some s.lnq_h_a
  | .h, .b => some s.lnq_h_b
  | .a, .a => some s.lnq_a_a
  | .a, .b => some s.lnq_a_b
  | .b, .b => some s.lnq_b_b
  | _, _ => none

/-- The module constant `ln10 = np.log(10)`. -/
def ln10 (e : Ext) : ℚ := e.log 10

/-- Modelled from the spec: the superclass scale `Hs = 10 ** logHs`. -/
def Hs (e : Ext) (c : Ctx) : ℚ := e.rpow 10 c.logHs

/-- Modelled from the spec: the superclass truncation mass
`mmin = 10 ** log_mmin`, a scalar (the minimum of the length-1 mass
vector the constructor passes to the superclass). -/
def mmin (e : Ext) (c : Ctx) : ℚ := e.rpow 10 c.log_mmin

/-- `Hsd = 10 ** logHsd`, the data scale. -/
def Hsd (e : Ext) (c : Ctx) : ℚ := e.rpow 10 c.logHsd

/-- `_yd = mmin / Hsd`, the data mass ratio. -/
def _yd (e : Ext) (c : Ctx) : ℚ := mmin e c / Hsd e c

/-- `_xd = _yd ** betad`. -/
def _xd (e : Ext) (c : Ctx) : ℚ := e.rpow (_yd e c) c.betad

/-- `_zd = (_alphad_s + 1) / betad`, as a total function over `ℚ` (its
fallible Python counterpart is `_zdChecked`). -/
def _zd (c : Ctx) : ℚ := (c.alphad_s + 1) / c.betad

/-- Modelled from the spec: the superclass shifted model slope
`_alpha_s = alpha + scale`. -/
def _alpha_s (c : Ctx) : ℚ := c.alpha + c.scale

/-- Modelled from the spec: the superclass shape exponent
`_z = (_alpha_s + 1) / beta`. -/
def _z (c : Ctx) : ℚ := (_alpha_s c + 1) / c.beta

/-- Modelled from the spec: the superclass `_x = (mmin / Hs) ** beta`
(evaluated at the scalar truncation mass). -/
def _x (e : Ext) (c : Ctx) : ℚ := e.rpow (mmin e c / Hs e c) c.beta

/-- Modelled from the spec: the superclass log density
`_lng = ln_mrp_shape(mmin, logHs, _alpha_s, beta)` at the truncation
mass. -/
def _lng (e : Ext) (c : Ctx) : ℚ := e.ln_mrp_shape (mmin e c) c.logHs (_alpha_s c) c.beta

/-- Modelled from the spec: the superclass normalization
`_q = gammainc(_z, _x) * Hs`. -/
def _q (e : Ext) (c : Ctx) : ℚ := e.gammainc (_z c) (_x e c) * Hs e c

/-- `_gammazd = gamma(_zd)`. -/
def _gammazd (e : Ext) (c : Ctx) : ℚ := e.gamma (_zd c)

/-- `_gammainc_zxd = gammainc(_zd, _xd)`. -/
def _gammainc_zxd (e : Ext) (c : Ctx) : ℚ := e.gammainc (_zd c) (_xd e c)

/-- `_gammainc_z1xd = gammainc(_zd + beta/betad, _xd)`. -/
def _gammainc_z1xd (e : Ext) (c : Ctx) : ℚ :=
  e.gammainc (_zd c + c.beta / c.betad) (_xd e c)

/-- `_G1d_p1 = meijerg([[],[1,1]], [[0,0,_zd+beta/betad],[]], _xd) / _gammainc_z1xd`. -/
def _G1d_p1 (e : Ext) (c : Ctx) : ℚ :=
  e.meijerg [[], [1, 1]] [[0, 0, _zd c + c.beta / c.betad], []] (_xd e c) / _gammainc_z1xd e c

/-- `_G2d_p1 = meijerg([[],[1,1,1]], [[0,0,0,_zd+beta/betad],[]], _xd) / _gammainc_z1xd`. -/
def _G2d_p1 (e : Ext) (c : Ctx) : ℚ :=
  e.meijerg [[], [1, 1, 1]] [[0, 0, 0, _zd c + c.beta / c.betad], []] (_xd e c) / _gammainc_z1xd e c

/-- `_Gbard_p1 = _G1d_p1 * log(_xd) + 2 * _G2d_p1`. -/
def _Gbard_p1 (e : Ext) (c : Ctx) : ℚ :=
  _G1d_p1 e c * e.log (_xd e c) + 2 * _G2d_p1 e c

/-- `_qd = gammainc(_zd, _xd) * Hsd`, the data normalization at the
truncation mass. -/
def _qd (e : Ext) (c : Ctx) : ℚ := e.gammainc (_zd c) (_xd e c) * Hsd e c

/-- `_qd_nos = gammainc((alphad+1)/betad, _xd) * Hsd`, the data
normalization without the scale shift. -/
def _qd_nos (e : Ext) (c : Ctx) : ℚ :=
  e.gammainc ((c.alphad + 1) / c.betad) (_xd e c) * Hsd e c

/-- The module-level scalar `hyperReg(a, b, z) =
hyper(a, b, z) / product(gamma(b_i))`. -/
def hyperReg (e : Ext) (a b : List ℚ) (z : ℚ) : ℚ :=
  e.hyper a b z / (b.map e.gamma).prod

/-- `_t`, scalar path: `(_alpha_s * Hsd / betad) * _gammazd *
(_yd ** (_alphad_s + 1) * _gammazd * _hyperReg([_zd,_zd],[_zd+1,_zd+1],-_xd)
 + polygamma(0,_zd) - betad * log(_yd))`. -/
def _t (e : Ext) (c : Ctx) : ℚ :=
  _alpha_s c * Hsd e c / c.betad * _gammazd e c *
    (e.rpow (_yd e c) (c.alphad_s + 1) * _gammazd e c *
        hyperReg e [_zd c, _zd c] [_zd c + 1, _zd c + 1] (-(_xd e c)) +
      e.polygamma 0 (_zd c) - c.betad * e.log (_yd e c))

/-- `_u = (Hsd/Hs)**beta * (Hsd * _gammainc_z1xd - _xd**(beta/betad) * _qd)`. -/
def _u (e : Ext) (c : Ctx) : ℚ :=
  e.rpow (Hsd e c / Hs e c) c.beta *
    (Hsd e c * _gammainc_z1xd e c - e.rpow (_xd e c) (c.beta / c.betad) * _qd e c)

/-- `_F = squeeze(_qd * (_lng - log(_q)) + _t - _u)`; on a scalar
parameter set the squeeze is the identity. -/
def _F (e : Ext) (c : Ctx) : ℚ :=
  _qd e c * (_lng e c - e.log (_q e c)) + _t e c - _u e c

/-- `lnL = V * exp(lnA) * (_qd_nos / _qd) * _F`, scalar path. -/
def lnL (e : Ext) (c : Ctx) : ℚ :=
  c.V * e.exp c.lnA * (_qd_nos e c / _qd e c) * _F e c

/-- `_u_h = -beta * _u * ln10`. -/
def _u_h (e : Ext) (c : Ctx) : ℚ := -c.beta * _u e c * ln10 e

/-- `_u_h_h = -ln10 * beta * _u_h`. -/
def _u_h_h (e : Ext) (c : Ctx) : ℚ := -ln10 e * c.beta * _u_h e c

/-- `_u_b`, assembled exactly as in the source from
`a = log(Hsd/Hs) * _u`, `b = (Hsd/Hs)**beta`, `c = _u * log(_xd) / b`
and `d = Hsd * _gammainc_z1xd * _G1d_p1`. -/
def _u_b (e : Ext) (c : Ctx) : ℚ :=
  let a := e.log (Hsd e c / Hs e c) * _u e c
  let b := e.rpow (Hsd e c / Hs e c) c.beta
  let c2 := _u e c * e.log (_xd e c) / b
  let d := Hsd e c * _gammainc_z1xd e c * _G1d_p1 e c
  a + b * (1 / c.betad * (c2 + d))

/-- `_u_h_b = -ln10 * (_u + beta * _u_b)`. -/
def _u_h_b (e : Ext) (c : Ctx) : ℚ := -ln10 e * (_u e c + c.beta * _u_b e c)

/-- `_u_b_b`, assembled exactly as in the source from
`hfrac = Hsd/Hs`, `a = 1/betad`,
`b = _u_b * (betad * log(hfrac) + log(_xd))`,
`c = log(hfrac) * Hsd * _G1d_p1 * _gammainc_z1xd * hfrac**beta` and
`d = Hsd * hfrac**beta * _gammainc_z1xd * _Gbard_p1 / betad`. -/
def _u_b_b (e : Ext) (c : Ctx) : ℚ :=
  let hfrac := Hsd e c / Hs e c
  let a := 1 / c.betad
  let b := _u_b e c * (c.betad * e.log hfrac + e.log (_xd e c))
  let c2 := e.log hfrac * Hsd e c * _G1d_p1 e c * _gammainc_z1xd e c * e.rpow hfrac c.beta
  let d := Hsd e c * e.rpow hfrac c.beta * _gammainc_z1xd e c * _Gbard_p1 e c / c.betad
  a * (b + c2 + d)

/-- Attribute lookup `getattr(self, "_u_%s_%s" % (x, y))`: the class
defines exactly the canonical six second partials of `_u`, several of
which are the hard-coded zeros `_u_a_a = _u_h_a = _u_a_b = 0`. -/
def _u2 (e : Ext) (c : Ctx) : Param → Param → Option ℚ
  | .h, .h => some (_u_h_h e c)
  | .h, .a => some 0
  | .h, .b => some (_u_h_b e c)
  | .a, .a => some 0
  | .a, .b => some 0
  | .b, .b => some (_u_b_b e c)
  | _, _ => none

/-- `IdealAnalytic._F_x_y(x, y)`: canonically reorders the pair —
`(y, h)` and `(b, a)` are swapped to put `h` first / `(a, b)` — then
looks up the stored mixed partials and returns
`_qd * (lng_xy - lnq_xy) - u_xy`. A lookup of a non-existent
non-canonical attribute would be an `AttributeError` (`none`). -/
def _F_x_y (e : Ext) (sup : Super) (c : Ctx) (x y : Param) : Option ℚ :=
  let p : Param × Param :=
    if y = Param.h ∨ (y = Param.a ∧ x = Param.b) then (y, x) else (x, y)
  do
    let lngxy ← sup.lng2 p.1 p.2
    let lnqxy ← sup.lnq2 p.1 p.2
    let uxy ← _u2 e c p.1 p.2
    pure (_qd e c * (lngxy - lnqxy) - uxy)

/-- The common prefactor `A = V * exp(lnA) * (_qd_nos / _qd)` of the
likelihood and the Hessian. -/
def prefA (e : Ext) (c : Ctx) : ℚ := c.V * e.exp c.lnA * (_qd_nos e c / _qd e c)

/-- Shorthand for the engine's 3×3 matrices over the parameter order
(log-scale, slope, cutoff-shape). -/
abbrev M3 := Matrix (Fin 3) (Fin 3) ℚ

/-- `IdealAnalytic.hessian`, scalar branch: the six distinct second
partials `_F_x_y` are placed into a symmetric 3×3 matrix (the single
stored mixed partial fills both off-diagonal positions) and scaled by
the prefactor `A`; the final `np.squeeze` is the identity on a 3×3
array. -/
def hessian (e : Ext) (sup : Super) (c : Ctx) : Option M3 := do
  let hh ← _F_x_y e sup c .h .h
  let ha ← _F_x_y e sup c .h .a
  let hb ← _F_x_y e sup c .h .b
  let aa ← _F_x_y e sup c .a .a
  let ab ← _F_x_y e sup c .a .b
  let bb ← _F_x_y e sup c .b .b
  pure (prefA e c • !![hh, ha, hb; ha, aa, ab; hb, ab, bb])

/-- The exact mathematical contract of `np.linalg.inv` on a 3×3
matrix: adjugate over determinant. -/
def inv3 (A : M3) : M3 := A.det⁻¹ • A.adjugate

/-- `np.linalg.inv(-h)` applied to one (batch element's) Hessian. -/
def covOf (H : M3) : M3 := inv3 (-H)

/-- `IdealAnalytic.cov`, scalar branch: the inverse of the negated
Hessian. -/
def cov (e : Ext) (sup : Super) (c : Ctx) : Option M3 :=
  (hessian e sup c).map covOf

/-- `IdealAnalytic.cov`, batched branch:
`np.array([np.linalg.inv(-h) for h in self.hessian])`. -/
def covBatched (hs : List M3) : List M3 := hs.map covOf

/-- One correlation matrix from one covariance matrix:
`s = sqrt(diag(c))`, then elementwise `c / outer(s, s)`. -/
def corrOf (e : Ext) (Cv : M3) : M3 :=
  Matrix.of fun i j => Cv i j / (e.sqrt (Cv i i) * e.sqrt (Cv j j))

/-- `IdealAnalytic.corr`, scalar branch. -/
def corr (e : Ext) (sup : Super) (c : Ctx) : Option M3 :=
  (cov e sup c).map (corrOf e)

/-- `IdealAnalytic.corr`, batched branch: the same rescaling applied
per batch element. -/
def corrBatched (e : Ext) (cs : List M3) : List M3 := cs.map (corrOf e)

/-- A concrete instantiation of the external numeric primitives, used
to evaluate the engine at concrete parameter sets. -/
def ext0 : Ext where
  gamma := fun _ => 1
  gammainc := fun _ _ => 1
  polygamma := fun _ _ => 0
  hyper := fun _ _ _ => 0
  log := fun _ => 0
  exp := fun _ => 1
  sqrt := fun x => x
  rpow := fun _ _ => 1
  mrp_shape := fun _ _ _ _ => 0
  ln_mrp_shape := fun _ _ _ _ => 0
  meijerg := fun _ _ _ => 0

/-- Concrete superclass second partials for evaluation. -/
def sup0 : Super where
  lng_h_h := -1
  lng_h_a := 0
  lng_h_b := 0
  lng_a_a := -1
  lng_a_b := 0
  lng_b_b := -1
  lnq_h_h := 0
  lnq_h_a := 0
  lnq_h_b := 0
  lnq_a_a := 0
  lnq_a_b := 0
  lnq_b_b := 0

/-- A concrete constructed instance (scalar parameter set). -/
def ctx0 : Ctx where
  lnA := 0
  V := 1
  logHs := 1
  alpha := 1
  beta := 1
  scale := 0
  log_mmin := 0
  logHsd := 1
  alphad := 1
  betad := 1
  alphad_s := 1

/-- A numpy value in the engine's 1-D world: either a float scalar or a
1-D array. -/
inductive Val where
  | s (x : ℚ)
  | v (xs : List ℚ)
deriving DecidableEq, Repr

/-- `hasattr(x, "__len__")`. -/
def Val.isArr : Val → Bool
  | .s _ => false
  | .v _ => true

/-- Broadcast length contribution: `none` for a scalar. -/
def Val.blen : Val → Option ℕ
  | .s _ => none
  | .v xs => some xs.length

/-- numpy 1-D broadcasting of two lengths: equal lengths are kept and a
length-1 side stretches; any other pair is a broadcast fault. -/
def joinLen : Option ℕ → Option ℕ → Except Err (Option ℕ)
  | none, b => .ok b
  | some n, none => .ok (some n)
  | some n, some m =>
    if n = m then .ok (some n)
    else if n = 1 then .ok (some m)
    else if m = 1 then .ok (some n)
    else .error .shapeError

/-- The common broadcast length of a list of values (`none` when all
are scalars). -/
def bshape (vs : List Val) : Except Err (Option ℕ) :=
  vs.foldlM (fun acc w => joinLen acc w.blen) none

/-- Element `i` of a value under broadcasting (a scalar or a length-1
array repeats along the batch). -/
def Val.bget : Val → ℕ → ℚ
  | .s x, _ => x
  | .v xs, i => if xs.length = 1 then xs.headD 0 else xs.getD i 0

/-- Elementwise (ufunc) application of an n-ary scalar function under
numpy 1-D broadcasting; the result is a scalar exactly when every input
is a scalar. -/
def bcN (f : List ℚ → ℚ) (vs : List Val) : Except Err Val := do
  match ← bshape vs with
  | none => pure (.s (f (vs.map fun w => w.bget 0)))
  | some n => pure (.v ((List.range n).map fun i => f (vs.map fun w => w.bget i)))

/-- Binary broadcast arithmetic. -/
def bc2 (f : ℚ → ℚ → ℚ) (x y : Val) : Except Err Val :=
  bcN (fun l => f (l.getD 0 0) (l.getD 1 0)) [x, y]

/-- Unary ufunc; never faults. -/
def bc1 (f : ℚ → ℚ) : Val → Val
  | .s x => .s (f x)
  | .v xs => .v (xs.map f)

/-- Four-argument broadcast (used for the density-shape call). -/
def bc4 (f : ℚ → ℚ → ℚ → ℚ → ℚ) (x y z w : Val) : Except Err Val :=
  bcN (fun l => f (l.getD 0 0) (l.getD 1 0) (l.getD 2 0) (l.getD 3 0)) [x, y, z, w]

/-- `np.squeeze` on 1-D data: a length-1 array becomes a scalar,
everything else is unchanged. -/
def Val.squeeze : Val → Val
  | .v [x] => .s x
  | w => w

/-- `np.atleast_1d`. -/
def atleast1d : Val → List ℚ
  | .s x => [x]
  | .v xs => xs

/-- A Python float where a scalar is required (the arbitrary-precision
evaluator raises `TypeError` on an array argument). -/
def Val.asScalar : Val → Except Err ℚ
  | .s x => .ok x
  | .v _ => .error .typeError

/-- `IdealAnalytic._hyperReg(a, b, z)` with its three code paths.
When `a[0]` is an array (batched parameters) the batch loop
`for i, aa, bb, zz in enumerate(zip(a[0], b[0], z))` is executed after
broadcasting a length-1 `z`; each item `enumerate` yields is the
2-tuple `(i, (aa, bb, zz))`, and unpacking it into the four targets
raises `ValueError` at the first iteration, so only an empty batch
avoids the fault (returning the untouched `out = zeros_like(a[0])`).
When `z` is an array but `a[0]` is scalar, the vectorized
`hyperRegA` evaluates `hyper(a, b, z_i) / product(gamma(b_j))`
elementwise over `z`; otherwise the all-scalar `hyperReg` is called. -/
def _hyperReg (e : Ext) (a b : List Val) (z : Val) : Except Err Val :=
  match a with
  | [] => .error .indexError
  | a0 :: _ =>
    match a0 with
    | .v xs =>
      match b with
      | [] => .error .indexError
      | b0 :: _ =>
        match b0 with
        | .s _ => .error .typeError
        | .v ys =>
          let zl0 := atleast1d z
          let zl := if zl0.length = 1 then List.replicate xs.length (zl0.headD 0) else zl0
          if (xs.zip (ys.zip zl)).enum.isEmpty then .ok (.v (List.replicate xs.length 0))
          else .error .valueError
    | .s _ =>
      if z.isArr then do
        let as ← a.mapM Val.asScalar
        let bs ← b.mapM Val.asScalar
        pure (.v ((atleast1d z).map fun zz => hyperReg e as bs zz))
      else do
        let as ← a.mapM Val.asScalar
        let bs ← b.mapM Val.asScalar
        let zz ← z.asScalar
        pure (.s (hyperReg e as bs zz))

/-- A constructed instance whose parameters are numpy values: each
model or data parameter is a scalar or a length-N array (a batch).
Data parameters are stored already resolved by the constructor's
defaulting. -/
structure VCtx where
  lnA : ℚ
  V : ℚ
  logHs : Val
  alpha : Val
  beta : Val
  scale : ℚ
  log_mmin : ℚ
  logHsd : Val
  alphad : Val
  betad : Val

/-- Modelled from the spec: the superclass scale `Hs = 10 ** logHs`,
elementwise. -/
def v_Hs (e : Ext) (c : VCtx) : Val := bc1 (fun x => e.rpow 10 x) c.logHs

/-- `Hsd = 10 ** logHsd`, elementwise. -/
def v_Hsd (e : Ext) (c : VCtx) : Val := bc1 (fun x => e.rpow 10 x) c.logHsd

/-- Modelled from the spec: the scalar superclass truncation mass
`mmin = 10 ** log_mmin`. -/
def v_mmin (e : Ext) (c : VCtx) : ℚ := e.rpow 10 c.log_mmin

/-- `_alphad_s = alphad + scale`. -/
def v_alphad_s (c : VCtx) : Except Err Val :=
  bc2 (fun x y => x + y) c.alphad (.s c.scale)

/-- `_yd = mmin / Hsd`. -/
def v_yd (e : Ext) (c : VCtx) : Except Err Val :=
  bc2 (fun m h => m / h) (.s (v_mmin e c)) (v_Hsd e c)

/-- `_xd = _yd ** betad`. -/
def v_xd (e : Ext) (c : VCtx) : Except Err Val := do
  bc2 e.rpow (← v_yd e c) c.betad

/-- `_zd = (_alphad_s + 1) / betad`. -/
def v_zd (c : VCtx) : Except Err Val := do
  bc2 (fun x y => x / y) (← bc2 (fun x y => x + y) (← v_alphad_s c) (.s 1)) c.betad

/-- `_gammainc_z1xd = gammainc(_zd + beta/betad, _xd)`. -/
def v_gammainc_z1xd (e : Ext) (c : VCtx) : Except Err Val := do
  bc2 e.gammainc
    (← bc2 (fun x y => x + y) (← v_zd c) (← bc2 (fun x y => x / y) c.beta c.betad))
    (← v_xd e c)

/-- `_qd = gammainc(_zd, _xd) * Hsd`. -/
def v_qd (e : Ext) (c : VCtx) : Except Err Val := do
  bc2 (fun x y => x * y) (← bc2 e.gammainc (← v_zd c) (← v_xd e c)) (v_Hsd e c)

/-- `_qd_nos = gammainc((alphad + 1)/betad, _xd) * Hsd`. -/
def v_qd_nos (e : Ext) (c : VCtx) : Except Err Val := do
  bc2 (fun x y => x * y)
    (← bc2 e.gammainc
      (← bc2 (fun x y => x / y) (← bc2 (fun x y => x + y) c.alphad (.s 1)) c.betad)
      (← v_xd e c))
    (v_Hsd e c)

/-- `_t` with numpy values: `(_alpha_s * Hsd / betad) * gamma(_zd) *
(_yd ** (_alphad_s + 1) * gamma(_zd) *
 _hyperReg([_zd, _zd], [_zd + 1, _zd + 1], -_xd)
 + polygamma(0, _zd) - betad * log(_yd))`. -/
def v_t (e : Ext) (c : VCtx) : Except Err Val := do
  let zd ← v_zd c
  let yd ← v_yd e c
  let xd ← v_xd e c
  let gz := bc1 e.gamma zd
  let zd1 ← bc2 (fun x y => x + y) zd (.s 1)
  let hr ← _hyperReg e [zd, zd] [zd1, zd1] (bc1 (fun x => -x) xd)
  let pg := bc1 (e.polygamma 0) zd
  let ad1 ← bc2 (fun x y => x + y) (← v_alphad_s c) (.s 1)
  let als ← bc2 (fun x y => x + y) c.alpha (.s c.scale)
  let term1 ← bc2 (fun x y => x * y) (← bc2 (fun x y => x * y) (← bc2 e.rpow yd ad1) gz) hr
  let bigBr ← bc2 (fun x y => x - y) (← bc2 (fun x y => x + y) term1 pg)
    (← bc2 (fun x y => x * y) c.betad (bc1 e.log yd))
  bc2 (fun x y => x * y)
    (← bc2 (fun x y => x * y)
      (← bc2 (fun x y => x / y) (← bc2 (fun x y => x * y) als (v_Hsd e c)) c.betad) gz)
    bigBr

/-- `_u` with numpy values. -/
def v_u (e : Ext) (c : VCtx) : Except Err Val := do
  let hfrac ← bc2 (fun x y => x / y) (v_Hsd e c) (v_Hs e c)
  let a ← bc2 e.rpow hfrac c.beta
  let b ← bc2 (fun x y => x * y) (v_Hsd e c) (← v_gammainc_z1xd e c)
  let c2 ← bc2 (fun x y => x * y)
    (← bc2 e.rpow (← v_xd e c) (← bc2 (fun x y => x / y) c.beta c.betad))
    (← v_qd e c)
  bc2 (fun x y => x * y) a (← bc2 (fun x y => x - y) b c2)

/-- Modelled from the spec: the superclass `_lng`, the log density
evaluated at the length-1 mass vector `[mmin]` the constructor passes
down, broadcast against the (possibly batched) model parameters. -/
def v_lng (e : Ext) (c : VCtx) : Except Err Val := do
  bc4 e.ln_mrp_shape (.v [v_mmin e c]) c.logHs
    (← bc2 (fun x y => x + y) c.alpha (.s c.scale)) c.beta

/-- Modelled from the spec: the superclass `_q = gammainc(_z, _x) * Hs`
at the length-1 mass vector. -/
def v_q (e : Ext) (c : VCtx) : Except Err Val := do
  let zz ← bc2 (fun x y => x / y)
    (← bc2 (fun x y => x + y) (← bc2 (fun x y => x + y) c.alpha (.s c.scale)) (.s 1)) c.beta
  let xx ← bc2 e.rpow (← bc2 (fun x y => x / y) (.v [v_mmin e c]) (v_Hs e c)) c.beta
  bc2 (fun x y => x * y) (← bc2 e.gammainc zz xx) (v_Hs e c)

/-- `_F = np.squeeze(_qd * (_lng - log(_q)) + _t - _u)` with numpy
values: on a scalar parameter set the inner expression has the
length-1 mass dimension, which the squeeze removes. -/
def v_F (e : Ext) (c : VCtx) : Except Err Val := do
  pure (Val.squeeze (← bc2 (fun x y => x - y)
    (← bc2 (fun x y => x + y)
      (← bc2 (fun x y => x * y) (← v_qd e c)
        (← bc2 (fun x y => x - y) (← v_lng e c) (bc1 e.log (← v_q e c))))
      (← v_t e c))
    (← v_u e c)))

/-- `lnL = V * exp(lnA) * (_qd_nos / _qd) * _F` with numpy values. -/
def v_lnL (e : Ext) (c : VCtx) : Except Err Val := do
  bc2 (fun x y => x * y)
    (← bc2 (fun x y => x * y) (.s (c.V * e.exp c.lnA))
      (← bc2 (fun x y => x / y) (← v_qd_nos e c) (← v_qd e c)))
    (← v_F e c)

/-- A scalar-parameter instance for the numpy-valued pipeline. -/
def vctxS : VCtx where
  lnA := 0
  V := 1
  logHs := .s 1
  alpha := .s 1
  beta := .s 1
  scale := 0
  log_mmin := 0
  logHsd := .s 1
  alphad := .s 1
  betad := .s 1

/-- A batch of two parameter sets (data parameters defaulted to the
model ones). -/
def vctxB : VCtx where
  lnA := 0
  V := 1
  logHs := .v [1, 2]
  alpha := .v [1, 2]
  beta := .v [1, 2]
  scale := 0
  log_mmin := 0
  logHsd := .v [1, 2]
  alphad := .v [1, 2]
  betad := .v [1, 2]

/-- A second batch of two parameter sets, for the batched-vs-scalar
comparison. -/
def vctxB2 : VCtx where
  lnA := 0
  V := 1
  logHs := .v [1, 2]
  alpha := .v [1, 3]
  beta := .v [1, 2]
  scale := 0
  log_mmin := 0
  logHsd := .v [1, 2]
  alphad := .v [1, 3]
  betad := .v [1, 2]

/-- The first element of `vctxB2` as a scalar instance. -/
def vctxB2a : VCtx where
  lnA := 0
  V := 1
  logHs := .s 1
  alpha := .s 1
  beta := .s 1
  scale := 0
  log_mmin := 0
  logHsd := .s 1
  alphad := .s 1
  betad := .s 1

/-- The second element of `vctxB2` as a scalar instance. -/
def vctxB2b : VCtx where
  lnA := 0
  V := 1
  logHs := .s 2
  alpha := .s 3
  beta := .s 2
  scale := 0
  log_mmin := 0
  logHsd := .s 2
  alphad := .s 3
  betad := .s 2

end Mrpy

namespace Mrpy

open Matrix

/-- Claim C8: constructing an `IdealAnalytic` without supplying the
truncation mass `log_mmin` raises immediately during construction;
with `log_mmin` supplied, construction does not raise for this
reason. -/
theorem init_requires_log_mmin :
    (∀ ar : Args, ar.log_mmin = none → init ar = .error .valueError) ∧
    (∀ (ar : Args) (lm : ℚ), ar.log_mmin = some lm → ∃ c, init ar = .ok c) := by
  constructor
  · intro ar h
    simp [init, h]
  · intro ar lm h
    exact ⟨{ lnA := ar.lnA, V := ar.V, logHs := ar.logHs, alpha := ar.alpha
             beta := ar.beta, scale := ar.scale, log_mmin := lm
             logHsd := pyOr ar.logHsd ar.logHs
             alphad := pyOr ar.alphad ar.alpha
             betad := pyOr ar.betad ar.beta
             alphad_s := pyOr ar.alphad ar.alpha + ar.scale },
           by unfold init; rw [h]⟩

/-- Witness for C8 at concrete arguments. -/
theorem init_requires_log_mmin_w :
    init { logHs := 14, alpha := -1, beta := 1 } = .error .valueError ∧
    ∃ c, init { logHs := 14, alpha := -1, beta := 1, log_mmin := some 11 } = .ok c :=
  ⟨init_requires_log_mmin.1 _ rfl, init_requires_log_mmin.2 _ 11 rfl⟩

/-- Claim C9: when a data parameter is not supplied it defaults to the
corresponding model parameter, and the model parameters themselves are
stored unchanged. -/
theorem data_params_default_to_model :
    ∀ (ar : Args) (c : Ctx), init ar = .ok c →
      (ar.logHsd = none → c.logHsd = ar.logHs) ∧
      (ar.alphad = none → c.alphad = ar.alpha) ∧
      (ar.betad = none → c.betad = ar.beta) ∧
      c.logHs = ar.logHs ∧ c.alpha = ar.alpha ∧ c.beta = ar.beta := by
  intro ar c h
  cases hm : ar.log_mmin with
  | none => simp [init, hm] at h
  | some lm =>
    simp only [init, hm] at h
    cases h
    refine ⟨fun h1 => ?_, fun h2 => ?_, fun h3 => ?_, rfl, rfl, rfl⟩ <;>
      simp_all [pyOr]

/-- Witness for C9 at concrete arguments. -/
theorem data_params_default_to_model_w :
    ∃ c, init { logHs := 14, alpha := -1, beta := 1, log_mmin := some 11 } = .ok c ∧
      c.logHsd = 14 ∧ c.alphad = -1 ∧ c.betad = 1 := by
  refine ⟨_, rfl, ?_⟩
  have h := data_params_default_to_model
    { logHs := 14, alpha := -1, beta := 1, log_mmin := some 11 } _ rfl
  exact ⟨h.1 rfl, h.2.1 rfl, h.2.2.1 rfl⟩

/-- Claim C10: a data parameter explicitly passed as the falsy value
`0` is silently replaced by the corresponding model parameter, because
the defaulting uses Python truthiness (`x or default`) rather than a
presence test; in particular `alphad = 0` yields a data slope equal to
the model `alpha`, not `0`. -/
theorem falsy_data_params_replaced :
    ∀ (ar : Args) (c : Ctx), init ar = .ok c →
      (ar.logHsd = some 0 → c.logHsd = ar.logHs) ∧
      (ar.alphad = some 0 → c.alphad = ar.alpha) ∧
      (ar.betad = some 0 → c.betad = ar.beta) := by
  intro ar c h
  cases hm : ar.log_mmin with
  | none => simp [init, hm] at h
  | some lm =>
    simp only [init, hm] at h
    cases h
    refine ⟨fun h1 => ?_, fun h2 => ?_, fun h3 => ?_⟩ <;>
      simp_all [pyOr]

/-- Witness for C10: passing `alphad = 0` with model slope `-19/10`
produces a data slope of `-19/10`, not `0`. -/
theorem falsy_data_params_replaced_w :
    ∃ c, init { logHs := 14, alpha := -19/10, beta := 1, alphad := some 0,
                log_mmin := some 11 } = .ok c ∧ c.alphad = -19/10 := by
  refine ⟨_, rfl, ?_⟩
  have h := falsy_data_params_replaced
    { logHs := 14, alpha := -19/10, beta := 1, alphad := some 0, log_mmin := some 11 } _ rfl
  exact h.2.1 rfl

/-- Claim C7: a parameter set whose cutoff-shape is `0` makes the
combined shape exponent `_zd = (alphad_s + 1)/betad` raise
`ZeroDivisionError` (the data cutoff-shape defaults to the model one,
which is `0`), rather than silently returning a non-signalling value. -/
theorem beta_zero_raises_zero_division :
    ∀ (ar : Args) (c : Ctx), init ar = .ok c → ar.beta = 0 →
      (ar.betad = none ∨ ar.betad = some 0) →
      _zdChecked c = .error .zeroDivisionError := by
  intro ar c h hb hbd
  cases hm : ar.log_mmin with
  | none => simp [init, hm] at h
  | some lm =>
    simp only [init, hm] at h
    cases h
    rcases hbd with h1 | h1 <;> simp_all [_zdChecked, pyOr]

/-- Witness for C7 at a concrete parameter set with cutoff-shape 0. -/
theorem beta_zero_raises_zero_division_w :
    ∃ c, init { logHs := 14, alpha := -19/10, beta := 0, log_mmin := some 11 } = .ok c ∧
      _zdChecked c = .error .zeroDivisionError := by
  refine ⟨_, rfl, ?_⟩
  exact beta_zero_raises_zero_division
    { logHs := 14, alpha := -19/10, beta := 0, log_mmin := some 11 } _ rfl rfl (.inl rfl)

theorem inv3_mul_self (A : M3) (h : A.det ≠ 0) : inv3 A * A = 1 := by
  unfold inv3
  rw [Matrix.smul_mul, Matrix.adjugate_mul, smul_smul, inv_mul_cancel₀ h, one_smul]

theorem hessian_eq (e : Ext) (sup : Super) (c : Ctx) :
    hessian e sup c = some (prefA e c •
      !![_qd e c * (sup.lng_h_h - sup.lnq_h_h) - _u_h_h e c,
         _qd e c * (sup.lng_h_a - sup.lnq_h_a) - 0,
         _qd e c * (sup.lng_h_b - sup.lnq_h_b) - _u_h_b e c;
         _qd e c * (sup.lng_h_a - sup.lnq_h_a) - 0,
         _qd e c * (sup.lng_a_a - sup.lnq_a_a) - 0,
         _qd e c * (sup.lng_a_b - sup.lnq_a_b) - 0;
         _qd e c * (sup.lng_h_b - sup.lnq_h_b) - _u_h_b e c,
         _qd e c * (sup.lng_a_b - sup.lnq_a_b) - 0,
         _qd e c * (sup.lng_b_b - sup.lnq_b_b) - _u_b_b e c]) := rfl

theorem hessian_symm_aux (e : Ext) (sup : Super) (c : Ctx) (H : M3)
    (h : hessian e sup c = some H) : ∀ i j, H i j = H j i := by
  rw [hessian_eq] at h
  injection h with h
  subst h
  intro i j
  fin_cases i <;> fin_cases j <;> simp [Matrix.smul_apply]

theorem hessian_ext0_eval : hessian ext0 sup0 ctx0 = some (-1) := by
  rw [hessian_eq]
  congr 1
  ext i j
  fin_cases i <;> fin_cases j <;>
    norm_num [prefA, _qd, _qd_nos, _u_h_h, _u_h_b, _u_b_b, _u_h, _u_b, _u, ln10,
      Hsd, Hs, _xd, _yd, mmin, _zd, _gammainc_z1xd, _G1d_p1, _G2d_p1, _Gbard_p1,
      ext0, sup0, ctx0, Matrix.smul_apply, Matrix.neg_apply, Matrix.one_apply] <;>
    decide

theorem covOf_transpose_eq (H : M3) (h : Hᵀ = H) : (covOf H)ᵀ = covOf H := by
  unfold covOf inv3
  rw [Matrix.transpose_smul, Matrix.adjugate_transpose, Matrix.transpose_neg, h]

/-- Claim C5: the assembled 3×3 Hessian is exactly symmetric, because
`_F_x_y` canonically reorders its argument pair (a pair whose second
element is `h` is swapped to put `h` first, and `(b, a)` is swapped to
`(a, b)`), so both requested orders read the same stored mixed partial,
and the matrix places that single value in both off-diagonal
positions. -/
theorem hessian_symmetric :
    ∀ (e : Ext) (sup : Super) (c : Ctx),
      (∀ x y : Param, _F_x_y e sup c x y = _F_x_y e sup c y x) ∧
      ∀ H : M3, hessian e sup c = some H → ∀ i j, H i j = H j i := by
  intro e sup c
  refine ⟨fun x y => ?_, fun H h => hessian_symm_aux e sup c H h⟩
  cases x <;> cases y <;> rfl

/-- Witness for C5: at a concrete instance the Hessian evaluates and
its off-diagonal entries agree. -/
theorem hessian_symmetric_w :
    hessian ext0 sup0 ctx0 = some (-1) ∧
    (-1 : M3) 0 1 = (-1 : M3) 1 0 ∧
    _F_x_y ext0 sup0 ctx0 Param.a Param.h = _F_x_y ext0 sup0 ctx0 Param.h Param.a :=
  ⟨hessian_ext0_eval,
    (hessian_symmetric ext0 sup0 ctx0).2 (-1) hessian_ext0_eval 0 1,
    (hessian_symmetric ext0 sup0 ctx0).1 Param.a Param.h⟩

/-- Claim C4: `cov` is `np.linalg.inv` of the negated Hessian (modelled
by the exact adjugate-over-determinant inverse), so it
matrix-multiplies with `-hessian` to the identity whenever the negated
Hessian is nonsingular; in the batched branch the same inversion is
applied to each batch element's 3×3 negated Hessian. -/
theorem cov_inverse_neg_hessian :
    ∀ (e : Ext) (sup : Super) (c : Ctx) (H : M3),
      hessian e sup c = some H → (-H).det ≠ 0 →
      (cov e sup c = some (covOf H) ∧ covOf H * (-H) = 1) ∧
      ∀ hs : List M3, H ∈ hs → covOf H ∈ covBatched hs := by
  intro e sup c H h hd
  refine ⟨⟨?_, ?_⟩, fun hs hm => ?_⟩
  · rw [cov, h, Option.map_some']
  · simpa [covOf] using inv3_mul_self (-H) hd
  · simpa [covBatched] using List.mem_map_of_mem covOf hm

/-- Witness for C4 at the concrete instance, where the Hessian is
minus the identity and the covariance times the negated Hessian is the
identity. -/
theorem cov_inverse_neg_hessian_w :
    cov ext0 sup0 ctx0 = some (covOf (-1)) ∧ covOf (-1) * (-(-1) : M3) = 1 :=
  (cov_inverse_neg_hessian ext0 sup0 ctx0 (-1) hessian_ext0_eval
    (by simp)).1

/-- Claim C6: `corr` equals `cov` divided elementwise by the outer
product of the square roots of its diagonal (per batch element in the
batched branch); consequently, whenever the external square root
behaves as a genuine square root on the (nonzero) diagonal, every
diagonal entry of `corr` is `1` and `corr` is symmetric. -/
theorem corr_diag_one_and_symmetric :
    ∀ (e : Ext) (sup : Super) (c : Ctx) (Cv R : M3),
      cov e sup c = some Cv → corr e sup c = some R →
      (∀ i, e.sqrt (Cv i i) * e.sqrt (Cv i i) = Cv i i) →
      (∀ i, Cv i i ≠ 0) →
      (∀ i j, R i j = Cv i j / (e.sqrt (Cv i i) * e.sqrt (Cv j j))) ∧
      (∀ i, R i i = 1) ∧ (∀ i j, R i j = R j i) ∧
      ∀ cs : List M3, Cv ∈ cs → corrOf e Cv ∈ corrBatched e cs := by
  intro e sup c Cv R hc hr hs hnz
  have hR : R = corrOf e Cv := by
    rw [corr, hc, Option.map_some'] at hr
    exact (Option.some.inj hr).symm
  obtain ⟨H, hH, hCv⟩ : ∃ H, hessian e sup c = some H ∧ covOf H = Cv :=
    Option.map_eq_some'.mp hc
  have hsymm : ∀ i j, Cv i j = Cv j i := by
    have ht : Hᵀ = H := by
      ext i j
      exact hessian_symm_aux e sup c H hH j i
    have h2 := covOf_transpose_eq H ht
    intro i j
    rw [← hCv]
    calc covOf H i j = (covOf H)ᵀ j i := rfl
    _ = covOf H j i := by rw [h2]
  subst hR
  refine ⟨fun i j => rfl, fun i => ?_, fun i j => ?_, fun cs hm => ?_⟩
  · show Cv i i / (e.sqrt (Cv i i) * e.sqrt (Cv i i)) = 1
    rw [hs i]
    exact div_self (hnz i)
  · show Cv i j / (e.sqrt (Cv i i) * e.sqrt (Cv j j)) =
      Cv j i / (e.sqrt (Cv j j) * e.sqrt (Cv i i))
    rw [hsymm i j, mul_comm]
  · simpa [corrBatched] using List.mem_map_of_mem (corrOf e) hm

/-- Witness for C6 at the concrete instance: the covariance is the
identity, so the correlation matrix has unit diagonal and is
symmetric. -/
theorem corr_diag_one_and_symmetric_w :
    corr ext0 sup0 ctx0 = some (corrOf ext0 (covOf (-1))) ∧
    corrOf ext0 (covOf (-1)) 0 0 = 1 ∧
    corrOf ext0 (covOf (-1)) 0 1 = corrOf ext0 (covOf (-1)) 1 0 := by
  have hc : cov ext0 sup0 ctx0 = some (covOf (-1)) := by
    rw [cov, hessian_ext0_eval, Option.map_some']
  have hr : corr ext0 sup0 ctx0 = some (corrOf ext0 (covOf (-1))) := by
    rw [corr, hc, Option.map_some']
  have h1 : covOf (-1 : M3) = 1 := by
    simp [covOf, inv3]
  have hsq : ∀ i, ext0.sqrt (covOf (-1 : M3) i i) * ext0.sqrt (covOf (-1 : M3) i i) =
      covOf (-1 : M3) i i := by
    rw [h1]
    intro i
    simp [ext0, Matrix.one_apply]
  have hnz : ∀ i, covOf (-1 : M3) i i ≠ 0 := by
    rw [h1]
    intro i
    simp [Matrix.one_apply]
  obtain ⟨-, hd, hsym, -⟩ := corr_diag_one_and_symmetric ext0 sup0 ctx0
    (covOf (-1)) (corrOf ext0 (covOf (-1))) hc hr hsq hnz
  exact ⟨hr, hd 0, hsym 0 1⟩

theorem bindE_ok {α β : Type} (a : α) (f : α → Except Err β) :
    (Except.ok a : Except Err α) >>= f = f a := rfl

theorem bindE_error {α β : Type} (er : Err) (f : α → Except Err β) :
    (Except.error er : Except Err α) >>= f = Except.error er := rfl

theorem pureE {α : Type} (a : α) : (pure a : Except Err α) = Except.ok a := rfl

/-- Claim C1: at a scalar parameter set the log-likelihood is indeed
assembled as `F = _qd * (_lng - log(_q)) + _t - _u`, squeezed from the
length-1 mass dimension to a scalar, with
`lnL = V * exp(lnA) * (_qd_nos / _qd) * F` a scalar; but a batched
parameter set does not yield a one-dimensional array with one entry per
batch element: evaluation raises `ValueError` inside `_hyperReg`'s
batch loop, reached through `_t`. -/
theorem lnL_scalar_ok_batched_raises :
    v_lnL ext0 vctxS = .ok (.s 0) ∧
    v_lnL ext0 vctxB = .error .valueError := by
  constructor
  · norm_num [v_lnL, v_F, v_t, v_u, v_q, v_lng, v_qd, v_qd_nos, v_gammainc_z1xd,
      v_zd, v_xd, v_yd, v_alphad_s, v_Hsd, v_Hs, v_mmin, _hyperReg, hyperReg,
      Val.squeeze, Val.asScalar, Val.isArr, atleast1d,
      bc2, bc4, bcN, bc1, bshape, joinLen, Val.blen, Val.bget,
      bindE_ok, bindE_error, pureE, List.foldlM, List.mapM, List.mapM.loop,
      ext0, vctxS]
  · rfl

/-- Claim C2: a batched `_hyperReg` call does not return the length-N
array of scalar regularized-hypergeometric evaluations; the statement
`for i, aa, bb, zz in enumerate(zip(a[0], b[0], z))` unpacks each
2-tuple produced by `enumerate` into four targets and raises
`ValueError` at the first batch element. -/
theorem hyperReg_batched_raises :
    _hyperReg ext0 [.v [2, 3], .v [2, 3]] [.v [3, 4], .v [3, 4]] (.s (-1)) =
      .error .valueError := rfl

set_option maxHeartbeats 2000000 in
/-- Claim C3: batched evaluation does not equal elementwise scalar
evaluation: on a batch of two parameter sets the batched `lnL` raises
`ValueError` (via `_hyperReg`'s batch loop), while each of the two
scalar instances evaluates to a log-likelihood value. -/
theorem lnL_batched_vs_scalar :
    v_lnL ext0 vctxB2 = .error .valueError ∧
    v_lnL ext0 vctxB2a = .ok (.s 0) ∧
    v_lnL ext0 vctxB2b = .ok (.s 0) := by
  refine ⟨rfl, ?_, ?_⟩
  · norm_num [v_lnL, v_F, v_t, v_u, v_q, v_lng, v_qd, v_qd_nos, v_gammainc_z1xd,
      v_zd, v_xd, v_yd, v_alphad_s, v_Hsd, v_Hs, v_mmin, _hyperReg, hyperReg,
      Val.squeeze, Val.asScalar, Val.isArr, atleast1d,
      bc2, bc4, bcN, bc1, bshape, joinLen, Val.blen, Val.bget,
      bindE_ok, bindE_error, pureE, List.foldlM, List.mapM, List.mapM.loop,
      ext0, vctxB2a]
  · norm_num [v_lnL, v_F, v_t, v_u, v_q, v_lng, v_qd, v_qd_nos, v_gammainc_z1xd,
      v_zd, v_xd, v_yd, v_alphad_s, v_Hsd, v_Hs, v_mmin, _hyperReg, hyperReg,
      Val.squeeze, Val.asScalar, Val.isArr, atleast1d,
      bc2, bc4, bcN, bc1, bshape, joinLen, Val.blen, Val.bget,
      bindE_ok, bindE_error, pureE, List.foldlM, List.mapM, List.mapM.loop,
      ext0, vctxB2b]

end Mrpy
